import Mathlib

/-!
Verification development for the payout-engine repository.

The definitions below are a shallow embedding of the Python sources:
  * `app/engine/eligibility.py`  — eligibility gate
  * `app/routing/country_rails.py` and `app/routing/rail_selector.py` — rail selection
  * `app/engine/retry.py`        — retry wrapper with exponential backoff
  * `app/engine/orchestrator.py` — run orchestrator

Modelling conventions:
  * Python `Optional[str]` becomes `Option String`; Python truthiness of a
    string (`if s:`) is `pyTruthy`, which is false for both `None` and `""`.
  * Python floats are modelled as exact rationals (`ℚ`).  The quantities the
    code manipulates (amounts, retry delays that are powers of two, the cap
    30.0) are exactly representable, and no verified claim depends on binary
    floating-point rounding drift.
  * Exceptions become an explicit error type (`PError`) and `Except`.
  * Wall-clock readings (note timestamps) are threaded as an opaque `String`
    parameter; the audit log (append-only, never read back by the engine) is
    not modelled.
-/

namespace PayoutEngine

/-- Python truthiness of an optional string: `None` and `""` are falsy. -/
def pyTruthy : Option String → Bool
  | none => false
  | some s => s ≠ ""

/-- Python `a or b` for an optional string with a string default:
`payout.external_account_id or ""`. -/
def pyOrStr (o : Option String) (d : String) : String :=
  match o with
  | none => d
  | some s => if s = "" then d else s

/-! ## `app/engine/eligibility.py` -/

/-- `SkipReason` enum from `app/models/enums.py`. -/
inductive SkipReason where
  | INVALID_METHOD
  | WRONG_STATUS
  | INVALID_AMOUNT
  | MISSING_EXTERNAL_ACCOUNT
  | EXISTING_PAYMENT_ORDER
  | MISSING_COUNTRY
deriving DecidableEq, Repr

/-- The `.value` string of each `SkipReason` member. -/
def SkipReason.value : SkipReason → String
  | .INVALID_METHOD => "invalid_method"
  | .WRONG_STATUS => "wrong_status"
  | .INVALID_AMOUNT => "invalid_amount"
  | .MISSING_EXTERNAL_ACCOUNT => "missing_external_account"
  | .EXISTING_PAYMENT_ORDER => "existing_payment_order"
  | .MISSING_COUNTRY => "missing_country"

/-- `EligibilityResult` dataclass. -/
structure EligibilityResult where
  eligible : Bool
  skip_reason : Option SkipReason := none
  message : String := ""
deriving DecidableEq, Repr

/-- `ALLOWED_METHODS = {"ACH", "Wire"}`. -/
def ALLOWED_METHODS : List String := ["ACH", "Wire"]

/-- Python `str(x)` for an optional string (used in f-string interpolation,
where `None` prints as `"None"`). -/
def pyStrOpt : Option String → String
  | none => "None"
  | some s => s

/-- Python `str(x)` for an optional numeric amount.  The decimal rendering of
a float is abstracted to the rational's `toString`; no claim depends on it. -/
def pyStrAmt : Option ℚ → String
  | none => "None"
  | some q => toString q

/-- `check_eligibility` from `app/engine/eligibility.py`. -/
def check_eligibility (payment_method : Option String) (amount : Option ℚ)
    (external_account_id : Option String) (country : Option String)
    (existing_payment_order_id : Option String := none) : EligibilityResult :=
  -- Idempotency: already has a payment order
  if pyTruthy existing_payment_order_id then
    { eligible := false
      skip_reason := some .EXISTING_PAYMENT_ORDER
      message := "Payment order already exists: " ++ pyStrOpt existing_payment_order_id }
  -- Valid payment method
  else if ¬ pyTruthy payment_method ∨ pyStrOpt payment_method ∉ ALLOWED_METHODS then
    { eligible := false
      skip_reason := some .INVALID_METHOD
      message := "Invalid payment method: " ++ pyStrOpt payment_method }
  -- Positive amount
  else if amount = none ∨ amount.getD 0 ≤ 0 then
    { eligible := false
      skip_reason := some .INVALID_AMOUNT
      message := "Invalid amount: " ++ pyStrAmt amount }
  -- External account required
  else if ¬ pyTruthy external_account_id then
    { eligible := false
      skip_reason := some .MISSING_EXTERNAL_ACCOUNT
      message := "No external bank account on file" }
  -- Country required for routing
  else if ¬ pyTruthy country then
    { eligible := false
      skip_reason := some .MISSING_COUNTRY
      message := "Missing country code" }
  else
    { eligible := true }

/-! ## `app/routing/country_rails.py` -/

/-- `RailConfig` TypedDict (every entry of the table carries `type`,
`subtype` and `currency`; only Canada carries a `purpose`). -/
structure RailConfig where
  type : String
  subtype : String
  currency : String
  purpose : Option String := none
deriving DecidableEq, Repr

/-- `GLOBAL_ACH_MAP` from `app/routing/country_rails.py`, as an association
list in source order. -/
def GLOBAL_ACH_MAP : List (String × RailConfig) := [
  ("DE", { type := "cross_border", subtype := "sepa", currency := "EUR" }),
  ("FR", { type := "cross_border", subtype := "sepa", currency := "EUR" }),
  ("ES", { type := "cross_border", subtype := "sepa", currency := "EUR" }),
  ("NL", { type := "cross_border", subtype := "sepa", currency := "EUR" }),
  ("IT", { type := "cross_border", subtype := "sepa", currency := "EUR" }),
  ("AT", { type := "cross_border", subtype := "sepa", currency := "EUR" }),
  ("BE", { type := "cross_border", subtype := "sepa", currency := "EUR" }),
  ("IE", { type := "cross_border", subtype := "sepa", currency := "EUR" }),
  ("PT", { type := "cross_border", subtype := "sepa", currency := "EUR" }),
  ("FI", { type := "cross_border", subtype := "sepa", currency := "EUR" }),
  ("GR", { type := "cross_border", subtype := "sepa", currency := "EUR" }),
  ("LU", { type := "cross_border", subtype := "sepa", currency := "EUR" }),
  ("CY", { type := "cross_border", subtype := "sepa", currency := "EUR" }),
  ("MT", { type := "cross_border", subtype := "sepa", currency := "EUR" }),
  ("SK", { type := "cross_border", subtype := "sepa", currency := "EUR" }),
  ("LT", { type := "cross_border", subtype := "sepa", currency := "EUR" }),
  ("SI", { type := "cross_border", subtype := "sepa", currency := "EUR" }),
  ("EE", { type := "cross_border", subtype := "sepa", currency := "EUR" }),
  ("LV", { type := "cross_border", subtype := "sepa", currency := "EUR" }),
  ("GB", { type := "cross_border", subtype := "bacs", currency := "GBP" }),
  ("CA", { type := "cross_border", subtype := "eft", currency := "CAD", purpose := some "250" }),
  ("CH", { type := "cross_border", subtype := "sic", currency := "CHF" }),
  ("PL", { type := "cross_border", subtype := "pl_elixir", currency := "PLN" }),
  ("AU", { type := "cross_border", subtype := "au_becs", currency := "AUD" }),
  ("SG", { type := "cross_border", subtype := "sg_giro", currency := "SGD" }),
  ("IN", { type := "cross_border", subtype := "neft", currency := "INR" }),
  ("JP", { type := "cross_border", subtype := "zengin", currency := "JPY" }),
  ("DK", { type := "cross_border", subtype := "dk_nets", currency := "DKK" }),
  ("NZ", { type := "cross_border", subtype := "nz_becs", currency := "NZD" }),
  ("NO", { type := "cross_border", subtype := "nics", currency := "NOK" }),
  ("HK", { type := "cross_border", subtype := "chats", currency := "HKD" }),
  ("SE", { type := "cross_border", subtype := "se_bankgirot", currency := "SEK" }),
  ("RO", { type := "cross_border", subtype := "ro_sent", currency := "RON" }),
  ("MX", { type := "cross_border", subtype := "mx_ccen", currency := "MXN" }),
  ("IL", { type := "cross_border", subtype := "masav", currency := "ILS" }),
  ("ID", { type := "cross_border", subtype := "sknbi", currency := "IDR" }),
  ("HU", { type := "cross_border", subtype := "hu_ics", currency := "HUF" })]

/-! ## `app/routing/rail_selector.py` -/

/-- `RailDecision` dataclass. -/
structure RailDecision where
  payment_type : String
  subtype : Option String
  currency : String
  purpose : Option String
  fx_indicator : Option String
  label : String
deriving DecidableEq, Repr

/-- Python `str.strip()`: drop whitespace from both ends (implemented over
the character list so that concrete evaluation reduces). -/
def pyStrip (s : String) : String :=
  ⟨((s.data.dropWhile Char.isWhitespace).reverse.dropWhile Char.isWhitespace).reverse⟩

/-- Python `str.upper()` (ASCII uppercase, as for the codes involved). -/
def pyUpper (s : String) : String := ⟨s.data.map Char.toUpper⟩

/-- Python `s[:n]`: the first `n` characters. -/
def pyTake (s : String) (n : Nat) : String := ⟨s.data.take n⟩

/-- `(country_code or "").strip().upper()`. -/
def normalizeCountry (country_code : Option String) : String :=
  pyUpper (pyStrip (pyOrStr country_code ""))

/-- `select_rail` from `app/routing/rail_selector.py`. -/
def select_rail (country_code : Option String)
    (payment_method : Option String := none)
    (has_aba_routing : Bool := false) : RailDecision :=
  let country := normalizeCountry country_code
  -- Priority 1: Foreign investor with US bank account → domestic ACH
  if has_aba_routing ∧ country ≠ "US" then
    { payment_type := "ach", subtype := some "CCD", currency := "USD"
      purpose := none, fx_indicator := none
      label := "ACH (US) — foreign investor (" ++ country ++ ") with US bank" }
  -- Priority 2: US investor → domestic ACH
  else if country = "US" then
    { payment_type := "ach", subtype := some "CCD", currency := "USD"
      purpose := none, fx_indicator := none, label := "ACH (US)" }
  else
    -- Priority 3: Supported cross-border country → local rail
    match GLOBAL_ACH_MAP.lookup country with
    | some cfg =>
        { payment_type := "cross_border", subtype := some cfg.subtype
          currency := cfg.currency, purpose := cfg.purpose
          fx_indicator := some "fixed_to_variable"
          label := "Cross-Border " ++ pyUpper cfg.subtype ++ " (" ++ cfg.currency ++ ")" }
    | none =>
        -- Fallback: International wire (USD)
        { payment_type := "wire", subtype := none, currency := "USD"
          purpose := none, fx_indicator := none
          label := "Wire (International) — " ++ (if country = "" then "unknown" else country) }

/-! ## `app/engine/retry.py` -/

/-- `MAX_RETRIES = 5` (so 6 total tries). -/
def MAX_RETRIES : Nat := 5
/-- `BASE_DELAY = 1.0`. -/
def BASE_DELAY : ℚ := 1
/-- `MAX_DELAY = 30.0`. -/
def MAX_DELAY : ℚ := 30

/-- The `ProviderError` exception hierarchy of `app/engine/retry.py`:
`provider` is a plain `ProviderError(message, status_code, retriable)`,
`rateLimit` a `RateLimitError(message, retry_after)` (status 429, retriable),
`permanent` a `PermanentError(message, status_code)` (not retriable). -/
inductive PError where
  | provider (message : String) (status_code : Nat) (retriable : Bool)
  | rateLimit (message : String) (retry_after : Option ℚ)
  | permanent (message : String) (status_code : Nat)
deriving DecidableEq, Repr

/-- The `retriable` attribute of each error class. -/
def PError.retriable : PError → Bool
  | .provider _ _ r => r
  | .rateLimit _ _ => true
  | .permanent _ _ => false

/-- The `status_code` attribute of each error class. -/
def PError.status_code : PError → Nat
  | .provider _ c _ => c
  | .rateLimit _ _ => 429
  | .permanent _ c => c

/-- The test `isinstance(e, RateLimitError) and e.retry_after` as the hint it
yields: `none` unless `e` is a rate-limit error with a truthy (non-`None`,
nonzero) `retry_after`. -/
def PError.rateHint : PError → Option ℚ
  | .rateLimit _ (some t) => if t = 0 then none else some t
  | _ => none

/-- Trace of one `with_retry` execution: its outcome, the sleeps performed
(in order), and how many times the wrapped operation was invoked. -/
structure RetryTrace (α : Type) where
  result : Except PError α
  sleeps : List ℚ
  calls : Nat

/-- The `for attempt in range(max_retries + 1)` loop of `with_retry`.  The
operation is modelled as a function from the attempt index to its outcome.
`remaining` counts the attempts still allowed after the current one, i.e.
`remaining = max_retries - attempt`, so Python's `attempt < max_retries`
test is `remaining > 0`. -/
def retryGo {α : Type} (op : Nat → Except PError α)
    (remaining attempt : Nat) (delay : ℚ) : RetryTrace α :=
  match op attempt with
    | .ok v => ⟨.ok v, [], 1⟩
    | .error e =>
      if e.retriable then
        match remaining with
        | r + 1 =>
          let sleep_for :=
            match e.rateHint with
            | some t => min t MAX_DELAY
            | none => min delay MAX_DELAY
          let rest := retryGo op r (attempt + 1) (min (delay * 2) MAX_DELAY)
          ⟨rest.result, sleep_for :: rest.sleeps, rest.calls + 1⟩
        | 0 => ⟨.error e, [], 1⟩
      else ⟨.error e, [], 1⟩

/-- `with_retry(func, max_retries=MAX_RETRIES)` from `app/engine/retry.py`. -/
def with_retry {α : Type} (op : Nat → Except PError α)
    (max_retries : Nat := MAX_RETRIES) : RetryTrace α :=
  retryGo op max_retries 0 BASE_DELAY

/-! ## Data model (`app/models/payout.py`)

Timestamp columns (`created_at`, `updated_at`, `started_at`, `completed_at`)
are wall-clock bookkeeping never read by the engine and are not modelled. -/

/-- `Investor` row.  `has_aba_routing` is an `Integer` column (0/1). -/
structure Investor where
  id : String
  name : String
  country : Option String
  payment_method : Option String
  external_account_id : Option String
  has_aba_routing : ℤ
deriving DecidableEq, Repr

/-- `LiquidationEvent` row. -/
structure LiquidationEvent where
  id : String
  name : String
  total_amount : ℚ
  payout_date : Option String
  status : String
deriving DecidableEq, Repr

/-- `Payout` row. -/
structure Payout where
  id : String
  run_id : Option String
  liquidation_event_id : String
  investor_id : String
  investor_name : Option String
  amount : ℚ
  currency : String
  country : Option String
  payment_method : Option String
  has_aba_routing : ℤ
  external_account_id : Option String
  rail : Option String
  rail_subtype : Option String
  rail_currency : Option String
  fx_indicator : Option String
  status : String
  skip_reason : Option String
  payment_order_id : Option String
  payment_order_type : Option String
  notes : Option String
deriving DecidableEq, Repr

/-- `PayoutRun` row.  `skip_breakdown` stores the JSON-serialized skip-reason
counter; it is modelled as the counter's association list (insertion order). -/
structure PayoutRun where
  id : String
  liquidation_event_id : String
  status : String
  created_count : Nat
  skipped_count : Nat
  failed_count : Nat
  skip_breakdown : Option (List (String × Nat))
deriving DecidableEq, Repr

/-! ## Provider interface (`app/providers/base.py`) -/

/-- `PaymentOrderRequest` dataclass; `metadata` (a dict) is modelled as an
association list. -/
structure PaymentOrderRequest where
  payment_type : String
  subtype : Option String
  amount_cents : ℤ
  currency : String
  direction : String := "credit"
  originating_account_id : String := "internal_usd_001"
  receiving_account_id : String := ""
  effective_date : Option String := none
  description : String := ""
  statement_descriptor : String := ""
  purpose : Option String := none
  fx_indicator : Option String := none
  metadata : List (String × String) := []
deriving DecidableEq, Repr

/-- `PaymentOrderResponse` dataclass. -/
structure PaymentOrderResponse where
  payment_order_id : String
  status : String
  provider : String
  message : String := ""
deriving DecidableEq, Repr

/-- A provider's `create_payment_order`, indexed by a global invocation
counter so that successive calls (including the retry wrapper's re-invocations)
may behave differently, as a real provider can. -/
def PaymentProvider : Type :=
  Nat → PaymentOrderRequest → Except PError PaymentOrderResponse

/-- Python `bool(n)` on an integer column. -/
def pyTruthyInt (n : ℤ) : Bool := n ≠ 0

/-! ## `app/audit/logger.py` (the pure part) -/

/-- `append_note` from `app/audit/logger.py`.  `now` is the formatted UTC
wall-clock reading `datetime.now(timezone.utc).strftime('%Y-%m-%d %H:%M UTC')`,
threaded as a parameter (one reading per run; no claim depends on its value). -/
def append_note (now : String) (existing_notes : Option String) (message : String) : String :=
  let new_note := "[" ++ now ++ "] " ++ message
  if ¬ pyTruthy existing_notes then new_note
  else pyStrOpt existing_notes ++ "\n" ++ new_note

/-! ## `app/engine/orchestrator.py` -/

/-- Python `round(x)`: round half to even to the nearest integer.  The
binary floating-point representation drift of the Python float is abstracted:
the rational is rounded exactly (no verified claim depends on the drift,
which the design notes flag as acceptable). -/
def pyRound (x : ℚ) : ℤ :=
  let f := ⌊x⌋
  let r := x - f
  if r < 1/2 then f
  else if 1/2 < r then f + 1
  else if f % 2 = 0 then f else f + 1

/-- Python `round(x, 2)`: round half to even at two decimals. -/
def pyRound2 (x : ℚ) : ℚ := (pyRound (x * 100) : ℚ) / 100

/-- `_cents` from `app/engine/orchestrator.py`: `int(round(amount * 100))`. -/
def _cents (amount : ℚ) : ℤ := pyRound (amount * 100)

/-- `str(e)` for a provider error: the exception message. -/
def PError.message : PError → String
  | .provider m _ _ => m
  | .rateLimit m _ => m
  | .permanent m _ => m

/-- Result of `_process_single_payout`: the returned outcome marker
(`"created"`, `"skipped"` or `"failed"`), the mutated payout row, and how many
provider invocations the step consumed. -/
structure StepResult where
  outcome : String
  payout : Payout
  calls : Nat

/-- Step 2 of `_process_single_payout`: store the routing outputs on the
payout (`payout.rail = rail.subtype or rail.payment_type`, etc.). -/
def applyRail (rail : RailDecision) (payout : Payout) : Payout :=
  { payout with
    rail := some (pyOrStr rail.subtype rail.payment_type)
    rail_subtype := rail.subtype
    rail_currency := some rail.currency
    fx_indicator := rail.fx_indicator
    payment_order_type := some rail.label }

/-- Step 3 of `_process_single_payout`: the `PaymentOrderRequest` built from
the routing decision and the (routed) payout. -/
def buildRequest (rail : RailDecision) (payout : Payout)
    (event : LiquidationEvent) : PaymentOrderRequest :=
  { payment_type := rail.payment_type
    subtype := rail.subtype
    amount_cents := _cents payout.amount
    currency := rail.currency
    receiving_account_id := pyOrStr payout.external_account_id ""
    effective_date := event.payout_date
    description := "Payout to " ++ pyOrStr payout.investor_name payout.investor_id
    statement_descriptor := pyTake payout.investor_id 10
    purpose := rail.purpose
    fx_indicator := rail.fx_indicator
    metadata := [("event_id", payout.liquidation_event_id),
                 ("investor_id", payout.investor_id),
                 ("country", pyOrStr payout.country "")] }

/-- The `try`/`except` tail of `_process_single_payout`, dispatching on the
outcome of the retry-wrapped provider call.  A plain `ProviderError` — even a
non-retriable one — and a `RateLimitError` land in the
`except ProviderError` arm; only the `PermanentError` class lands in the
`except PermanentError` arm, as in the Python class-based handlers. -/
def finishStep (now : String) (trace : RetryTrace PaymentOrderResponse)
    (payout : Payout) : StepResult :=
  match trace.result with
  | .ok response =>
    -- audit "payment_created"
    ⟨"created",
     { payout with
       payment_order_id := some response.payment_order_id
       status := "completed"
       notes := some (append_note now payout.notes
           ("Payment order created: " ++ response.payment_order_id)) },
     trace.calls⟩
  | .error e =>
    match e with
    | .permanent .. =>
      -- except PermanentError: audit "payment_failed_permanent"
      ⟨"failed",
       { payout with
         status := "failed"
         notes := some (append_note now payout.notes ("Permanent failure: " ++ e.message)) },
       trace.calls⟩
    | _ =>
      -- except ProviderError: audit "payment_failed_retries_exhausted"
      ⟨"failed",
       { payout with
         status := "failed"
         notes := some (append_note now payout.notes
             ("Provider error after retries: " ++ e.message)) },
       trace.calls⟩

/-- `_process_single_payout` from `app/engine/orchestrator.py`.  `counter` is
the global provider-invocation counter at entry.  Audit-log appends
(`log_event`) do not affect engine state and are elided.  The
`except Exception` catch-all is unreachable in the model: the modelled
provider fails only with `PError`. -/
def _process_single_payout (payout : Payout) (provider : PaymentProvider)
    (counter : Nat) (event : LiquidationEvent) (now : String) : StepResult :=
  -- Step 1: Eligibility check
  let result := check_eligibility payout.payment_method (some payout.amount)
      payout.external_account_id payout.country payout.payment_order_id
  if ¬ result.eligible then
    -- audit "eligibility_failed"
    ⟨"skipped",
     { payout with
       status := "skipped"
       skip_reason := result.skip_reason.map SkipReason.value
       notes := some (append_note now payout.notes ("Skipped: " ++ result.message)) },
     0⟩
  else
    -- Step 2: Rail selection (audit "rail_selected")
    let rail := select_rail payout.country payout.payment_method
        (pyTruthyInt payout.has_aba_routing)
    let payout := applyRail rail payout
    -- Step 3: Create payment order via provider
    let request := buildRequest rail payout event
    let payout := { payout with status := "processing" }
    let trace := with_retry (fun n => provider (counter + n) request) MAX_RETRIES
    finishStep now trace payout

/-- Creation of a fresh `Payout` row for an investor without one
(`execute_run`, the `else` branch of the reconciliation loop).  `pid` models
the generated `uuid` primary key. -/
def buildPayout (event : LiquidationEvent) (numInvestors : Nat) (run_id : String)
    (pid : String) (inv : Investor) : Payout :=
  let share := event.total_amount / (max numInvestors 1 : ℚ)
  { id := pid
    run_id := some run_id
    liquidation_event_id := event.id
    investor_id := inv.id
    investor_name := some inv.name
    amount := pyRound2 share
    currency := "USD"
    country := inv.country
    payment_method := inv.payment_method
    has_aba_routing := inv.has_aba_routing
    external_account_id := inv.external_account_id
    rail := none, rail_subtype := none, rail_currency := none
    fx_indicator := none
    status := "pending"
    skip_reason := none, payment_order_id := none
    payment_order_type := none, notes := none }

/-- Reattachment of an existing payout (`execute_run`): associate it with
this run only if its status is not completed/skipped. -/
def attachPayout (run_id : String) (p : Payout) : Payout :=
  if p.status ≠ "completed" ∧ p.status ≠ "skipped" then { p with run_id := some run_id }
  else p

/-- The dict `{p.investor_id: p for p in existing payouts of the event}`
looked up at one investor id.  On duplicate investor ids the later row wins,
as in a Python dict comprehension (the uniqueness constraint on
`(liquidation_event_id, investor_id)` rules duplicates out anyway). -/
def existingFor (table : List Payout) (eid iid : String) : Option Payout :=
  ((table.filter fun p => p.liquidation_event_id == eid).filter
      fun p => p.investor_id == iid).getLast?

/-- The reconciliation loop of `execute_run`: one payout per investor, either
the (possibly reattached) existing row or a freshly created one.  `fresh`
models the `uuid` supply for new primary keys. -/
def gatherPayouts (event : LiquidationEvent) (table : List Payout)
    (numInvestors : Nat) (run_id : String) (fresh : Nat → String) :
    List Investor → Nat → List Payout
  | [], _ => []
  | inv :: rest, n =>
    match existingFor table event.id inv.id with
    | some p =>
        attachPayout run_id p ::
          gatherPayouts event table numInvestors run_id fresh rest n
    | none =>
        buildPayout event numInvestors run_id (fresh n) inv ::
          gatherPayouts event table numInvestors run_id fresh rest (n + 1)

/-- Accumulator of the processing loop of `execute_run`. -/
structure BatchState where
  payouts : List Payout
  successes : Nat
  skipped : Nat
  failures : Nat
  skip_counts : List (String × Nat)
  counter : Nat

/-- `Counter.__getitem__ += 1`: bump a key, preserving insertion order. -/
def bumpCounter (m : List (String × Nat)) (k : String) : List (String × Nat) :=
  match m with
  | [] => [(k, 1)]
  | (k', v) :: rest => if k' = k then (k', v + 1) :: rest else (k', v) :: bumpCounter rest k

/-- The `for payout in payouts` processing loop of `execute_run`. -/
def runPayouts (provider : PaymentProvider) (event : LiquidationEvent)
    (now : String) : List Payout → BatchState → BatchState
  | [], s => s
  | p :: rest, s =>
    let step := _process_single_payout p provider s.counter event now
    let s := { s with payouts := s.payouts ++ [step.payout],
                      counter := s.counter + step.calls }
    let s :=
      if step.outcome = "created" then { s with successes := s.successes + 1 }
      else if step.outcome = "skipped" then
        { s with skipped := s.skipped + 1
                 skip_counts :=
                   if pyTruthy step.payout.skip_reason then
                     bumpCounter s.skip_counts (pyStrOpt step.payout.skip_reason)
                   else s.skip_counts }
      else if step.outcome = "failed" then { s with failures := s.failures + 1 }
      else s
    runPayouts provider event now rest s

/-- Whether an initial payout row is picked up (hence mutated in place) by the
reconciliation loop: it is the dict entry of some investor. -/
def pickedUp (table : List Payout) (eid : String) (investors : List Investor)
    (p : Payout) : Bool :=
  investors.any fun inv => existingFor table eid inv.id == some p

/-- Result of an `execute_run` invocation: the run row, the payout table
after the run, the loop's processed payout list, and the number of provider
invocations consumed. -/
structure RunResult where
  run : PayoutRun
  table : List Payout
  processed : List Payout
  calls : Nat

/-- `execute_run` from `app/engine/orchestrator.py` over an explicit store
(events, investors, payout table).  `run_id` models the generated run uuid. -/
def execute_run (events : List LiquidationEvent) (investors : List Investor)
    (table : List Payout) (liquidation_event_id : String)
    (provider : PaymentProvider) (run_id : String) (fresh : Nat → String)
    (now : String) : RunResult :=
  let run : PayoutRun :=
    { id := run_id, liquidation_event_id := liquidation_event_id
      status := "running"
      created_count := 0, skipped_count := 0, failed_count := 0
      skip_breakdown := none }
  -- audit "run_started"
  match events.find? (fun ev => ev.id == liquidation_event_id) with
  | none =>
    -- audit "run_failed"
    ⟨{ run with status := "failed" }, table, [], 0⟩
  | some event =>
    let payouts := gatherPayouts event table investors.length run_id fresh investors 0
    let s := runPayouts provider event now payouts ⟨[], 0, 0, 0, [], 0⟩
    let run := { run with
      created_count := s.successes
      skipped_count := s.skipped
      failed_count := s.failures
      skip_breakdown := if s.skip_counts ≠ [] then some s.skip_counts else none
      status := "completed" }
    -- audit "run_completed"; session.commit(): rows picked up by the loop were
    -- mutated in place, fresh rows were inserted
    ⟨run,
     (table.filter fun p => ¬ pickedUp table event.id investors p) ++ s.payouts,
     s.payouts, s.counter⟩

/-- The eligibility result of a payout row's own fields, as
`_process_single_payout` invokes the gate. -/
def eligOf (p : Payout) : EligibilityResult :=
  check_eligibility p.payment_method (some p.amount) p.external_account_id
    p.country p.payment_order_id

/-- The mutation the skip branch of `_process_single_payout` applies. -/
def skipUpdate (now : String) (p : Payout) : Payout :=
  { p with
    status := "skipped"
    skip_reason := (eligOf p).skip_reason.map SkipReason.value
    notes := some (append_note now p.notes ("Skipped: " ++ (eligOf p).message)) }

/-- The routing decision `_process_single_payout` computes for a payout. -/
def railOf (p : Payout) : RailDecision :=
  select_rail p.country p.payment_method (pyTruthyInt p.has_aba_routing)

/-- The retry trace of the provider call for an eligible payout processed at
counter value `c`. -/
def stepTrace (p : Payout) (prov : PaymentProvider) (c : Nat)
    (ev : LiquidationEvent) : RetryTrace PaymentOrderResponse :=
  with_retry (fun n => prov (c + n) (buildRequest (railOf p) (applyRail (railOf p) p) ev))
    MAX_RETRIES

/-! Sample fixtures used as concrete inputs in closed instances. -/

/-- A sample liquidation event. -/
def sampleEvent : LiquidationEvent :=
  { id := "LIQ-1", name := "Sample Event", total_amount := 100
    payout_date := some "2026-01-01", status := "pending" }

/-- An investor whose payment method is not an allowed one. -/
def cryptoInvestor : Investor :=
  { id := "INV-061", name := "Crypto Only", country := some "US"
    payment_method := some "Crypto", external_account_id := some "acct_61"
    has_aba_routing := 0 }

/-- An investor with valid fields. -/
def aliceInvestor : Investor :=
  { id := "INV-001", name := "Alice", country := some "US"
    payment_method := some "ACH", external_account_id := some "acct_1"
    has_aba_routing := 0 }

/-- A provider that always succeeds with a fixed non-empty order id. -/
def okProvider : PaymentProvider := fun _ _ =>
  .ok { payment_order_id := "po_fixed", status := "pending", provider := "mock_provider" }

/-- A payout row whose provider order identifier is the empty string —
non-null, but falsy to Python. -/
def emptyOidPayout : Payout :=
  { id := "P1", run_id := none, liquidation_event_id := "LIQ-1", investor_id := "INV-001"
    investor_name := some "Alice", amount := 50, currency := "USD", country := some "US"
    payment_method := some "ACH", has_aba_routing := 0, external_account_id := some "acct_1"
    rail := none, rail_subtype := none, rail_currency := none, fx_indicator := none
    status := "pending", skip_reason := none, payment_order_id := some ""
    payment_order_type := none, notes := none }

/-- A payout row already completed in an earlier run, holding a non-empty
provider order id. -/
def completedPayout : Payout :=
  { id := "P1", run_id := some "RUN-0", liquidation_event_id := "LIQ-1"
    investor_id := "INV-001", investor_name := some "Alice", amount := 50
    currency := "USD", country := some "US", payment_method := some "ACH"
    has_aba_routing := 0, external_account_id := some "acct_1"
    rail := some "CCD", rail_subtype := some "CCD", rail_currency := some "USD"
    fx_indicator := none, status := "completed", skip_reason := none
    payment_order_id := some "po_1", payment_order_type := some "ACH (US)"
    notes := some "old notes" }

/-- What one run with an always-succeeding provider does to one payout:
an ineligible row becomes its skip-update; an eligible row completes with a
non-empty provider order id, its identity fields preserved. -/
def OkPost (now : String) (p q : Payout) : Prop :=
  ((eligOf p).eligible = false ∧ q = skipUpdate now p)
  ∨ ((eligOf p).eligible = true ∧ q.status = "completed"
      ∧ pyTruthy q.payment_order_id = true
      ∧ q.investor_id = p.investor_id
      ∧ q.liquidation_event_id = p.liquidation_event_id)

/-- What a row of the payout table looks like for its investor after a run
with an always-succeeding provider, starting from a table with no rows for
the event. -/
def Run1Row (ev : LiquidationEvent) (inv : Investor) (q : Payout) : Prop :=
  q.investor_id = inv.id ∧ q.liquidation_event_id = ev.id
  ∧ (q.status = "completed" ∨ q.status = "skipped")
  ∧ (eligOf q).eligible = false
  ∧ (q.status = "completed" → pyTruthy q.payment_order_id = true)

/-! ## Lemmas and claim theorems -/


/-! ## Lemmas and claim theorems -/

/-- C10: checkEligibility treats an empty-string order id exactly like an absent one,
and the idempotency guard fires (reason EXISTING_PAYMENT_ORDER) iff the existing
payment order identifier is a non-empty string. -/
theorem eligibility_guard_truthiness (pm : Option String) (amt : Option ℚ)
    (acct ctry oid : Option String) :
    check_eligibility pm amt acct ctry (some "") = check_eligibility pm amt acct ctry none
  ∧ ((check_eligibility pm amt acct ctry oid).skip_reason = some .EXISTING_PAYMENT_ORDER
       ↔ ∃ s, oid = some s ∧ s ≠ "") := by
  constructor
  · simp [check_eligibility, pyTruthy]
  · constructor
    · intro h
      match oid with
      | none =>
        simp [check_eligibility, pyTruthy] at h
        split_ifs at h <;> simp_all
      | some s =>
        by_cases hs : s = ""
        · subst hs
          simp [check_eligibility, pyTruthy] at h
          split_ifs at h <;> simp_all
        · exact ⟨s, rfl, hs⟩
    · rintro ⟨s, rfl, hs⟩
      simp [check_eligibility, pyTruthy, hs]

/-- C4: checkEligibility evaluates its checks in the fixed order
(1) existing order id set (Python truthiness) -> EXISTING_PAYMENT_ORDER,
(2) method absent or not in \{ACH, Wire\} -> INVALID_METHOD,
(3) amount absent, zero or negative -> INVALID_AMOUNT,
(4) external account id absent or empty -> MISSING_EXTERNAL_ACCOUNT,
(5) country absent or empty -> MISSING_COUNTRY, otherwise eligible with no
reason; the first failing check wins. -/
theorem check_eligibility_order (pm : Option String) (amt : Option ℚ)
    (acct ctry oid : Option String) :
    (pyTruthy oid = true →
        (check_eligibility pm amt acct ctry oid).skip_reason = some .EXISTING_PAYMENT_ORDER)
  ∧ (pyTruthy oid = false → (pm = none ∨ pyStrOpt pm ∉ ALLOWED_METHODS) →
        (check_eligibility pm amt acct ctry oid).skip_reason = some .INVALID_METHOD)
  ∧ (pyTruthy oid = false → ¬ (pm = none ∨ pyStrOpt pm ∉ ALLOWED_METHODS) →
      (amt = none ∨ amt.getD 0 ≤ 0) →
        (check_eligibility pm amt acct ctry oid).skip_reason = some .INVALID_AMOUNT)
  ∧ (pyTruthy oid = false → ¬ (pm = none ∨ pyStrOpt pm ∉ ALLOWED_METHODS) →
      ¬ (amt = none ∨ amt.getD 0 ≤ 0) → (acct = none ∨ acct = some "") →
        (check_eligibility pm amt acct ctry oid).skip_reason = some .MISSING_EXTERNAL_ACCOUNT)
  ∧ (pyTruthy oid = false → ¬ (pm = none ∨ pyStrOpt pm ∉ ALLOWED_METHODS) →
      ¬ (amt = none ∨ amt.getD 0 ≤ 0) → ¬ (acct = none ∨ acct = some "") →
      (ctry = none ∨ ctry = some "") →
        (check_eligibility pm amt acct ctry oid).skip_reason = some .MISSING_COUNTRY)
  ∧ (pyTruthy oid = false → ¬ (pm = none ∨ pyStrOpt pm ∉ ALLOWED_METHODS) →
      ¬ (amt = none ∨ amt.getD 0 ≤ 0) → ¬ (acct = none ∨ acct = some "") →
      ¬ (ctry = none ∨ ctry = some "") →
        (check_eligibility pm amt acct ctry oid).eligible = true
      ∧ (check_eligibility pm amt acct ctry oid).skip_reason = none) := by
  have hpm : ¬ (pm = none ∨ pyStrOpt pm ∉ ALLOWED_METHODS) →
      pyTruthy pm = true ∧ pyStrOpt pm ∈ ALLOWED_METHODS := by
    intro h
    match pm with
    | none => exact absurd (Or.inl rfl) h
    | some s =>
      have hs : s ∈ ALLOWED_METHODS := by
        by_contra hmem
        exact h (Or.inr hmem)
      refine ⟨?_, hs⟩
      simp only [ALLOWED_METHODS, List.mem_cons, List.not_mem_nil, or_false] at hs
      rcases hs with rfl | rfl <;> decide
  have hacct : ¬ (acct = none ∨ acct = some "") → pyTruthy acct = true := by
    intro h
    match acct with
    | none => exact absurd (Or.inl rfl) h
    | some s =>
      have hs : s ≠ "" := by
        intro hs
        exact h (Or.inr (by rw [hs]))
      simp [pyTruthy, hs]
  have hctry : ¬ (ctry = none ∨ ctry = some "") → pyTruthy ctry = true := by
    intro h
    match ctry with
    | none => exact absurd (Or.inl rfl) h
    | some s =>
      have hs : s ≠ "" := by
        intro hs
        exact h (Or.inr (by rw [hs]))
      simp [pyTruthy, hs]
  refine ⟨?_, ?_, ?_, ?_, ?_, ?_⟩
  · intro h
    simp [check_eligibility, h]
  · intro h hbad
    have hc : ¬ pyTruthy pm = true ∨ pyStrOpt pm ∉ ALLOWED_METHODS := by
      rcases hbad with rfl | hb
      · exact Or.inl (by simp [pyTruthy])
      · exact Or.inr hb
    unfold check_eligibility
    rw [if_neg (by simp [h]), if_pos hc]
  · intro h hgood hbad
    obtain ⟨h1, h2⟩ := hpm hgood
    unfold check_eligibility
    rw [if_neg (by simp [h]), if_neg (by simp [h1, h2]), if_pos hbad]
  · intro h hgood hamt hbad
    obtain ⟨h1, h2⟩ := hpm hgood
    have hb : ¬ pyTruthy acct = true := by
      rcases hbad with rfl | rfl <;> simp [pyTruthy]
    unfold check_eligibility
    rw [if_neg (by simp [h]), if_neg (by simp [h1, h2]), if_neg hamt, if_pos hb]
  · intro h hgood hamt hok hbad
    obtain ⟨h1, h2⟩ := hpm hgood
    have hb : ¬ pyTruthy ctry = true := by
      rcases hbad with rfl | rfl <;> simp [pyTruthy]
    unfold check_eligibility
    rw [if_neg (by simp [h]), if_neg (by simp [h1, h2]), if_neg hamt,
        if_neg (by simp [hacct hok]), if_pos hb]
  · intro h hgood hamt hok hcok
    obtain ⟨h1, h2⟩ := hpm hgood
    unfold check_eligibility
    rw [if_neg (by simp [h]), if_neg (by simp [h1, h2]), if_neg hamt,
        if_neg (by simp [hacct hok]), if_neg (by simp [hctry hcok])]
    exact ⟨rfl, rfl⟩

/-- C4 witness: an input with both an invalid method and an existing order id
yields reason EXISTING_PAYMENT_ORDER. -/
theorem check_eligibility_order_witness :
    (check_eligibility (some "Crypto") (some 5) (some "acct") (some "US")
        (some "po_9")).skip_reason = some .EXISTING_PAYMENT_ORDER :=
  (check_eligibility_order (some "Crypto") (some 5) (some "acct") (some "US")
      (some "po_9")).1 (by decide)

/-- C9: the rail decision is completely independent of the payment_method
argument: any two calls differing only in the method return equal decisions. -/
theorem select_rail_ignores_method (cc m m' : Option String) (flag : Bool) :
    select_rail cc m flag = select_rail cc m' flag := rfl

/-- C5: selectRail applies its rules in fixed priority order: (1) ABA flag true
and country not US -> domestic ACH/CCD/USD with no FX indicator; (2) country US
-> the same domestic decision regardless of method; (3) country in the
cross-border table -> a cross-border decision carrying that entry's subtype,
currency and purpose code with the fixed-source-currency FX indicator;
(4) otherwise the international-wire fallback with currency USD, no subtype, no
FX indicator. -/
theorem select_rail_priority (cc m : Option String) (flag : Bool) (cfg : RailConfig) :
    (flag = true → normalizeCountry cc ≠ "US" →
        (select_rail cc m flag).payment_type = "ach"
      ∧ (select_rail cc m flag).subtype = some "CCD"
      ∧ (select_rail cc m flag).currency = "USD"
      ∧ (select_rail cc m flag).fx_indicator = none)
  ∧ (normalizeCountry cc = "US" →
        (select_rail cc m flag).payment_type = "ach"
      ∧ (select_rail cc m flag).subtype = some "CCD"
      ∧ (select_rail cc m flag).currency = "USD"
      ∧ (select_rail cc m flag).fx_indicator = none)
  ∧ (flag = false → GLOBAL_ACH_MAP.lookup (normalizeCountry cc) = some cfg →
        (select_rail cc m flag).payment_type = "cross_border"
      ∧ (select_rail cc m flag).subtype = some cfg.subtype
      ∧ (select_rail cc m flag).currency = cfg.currency
      ∧ (select_rail cc m flag).purpose = cfg.purpose
      ∧ (select_rail cc m flag).fx_indicator = some "fixed_to_variable")
  ∧ (flag = false → normalizeCountry cc ≠ "US" →
      GLOBAL_ACH_MAP.lookup (normalizeCountry cc) = none →
        (select_rail cc m flag).payment_type = "wire"
      ∧ (select_rail cc m flag).subtype = none
      ∧ (select_rail cc m flag).currency = "USD"
      ∧ (select_rail cc m flag).fx_indicator = none) := by
  refine ⟨?_, ?_, ?_, ?_⟩
  · intro hf hus
    simp [select_rail, hf, hus]
  · intro hus
    cases flag <;> simp [select_rail, hus]
  · intro hf hl
    have hus : normalizeCountry cc ≠ "US" := by
      intro h
      rw [h] at hl
      rw [show GLOBAL_ACH_MAP.lookup "US" = none from by decide] at hl
      exact Option.noConfusion hl
    simp [select_rail, hf, hus, hl]
  · intro hf hus hl
    simp [select_rail, hf, hus, hl]

/-- C5 witness: Canada routes to the cross-border EFT rail in CAD with purpose
code 250 and the fixed-source-currency FX indicator. -/
theorem select_rail_priority_witness :
    (select_rail (some "CA") (some "Wire") false).payment_type = "cross_border"
  ∧ (select_rail (some "CA") (some "Wire") false).subtype = some "eft"
  ∧ (select_rail (some "CA") (some "Wire") false).currency = "CAD"
  ∧ (select_rail (some "CA") (some "Wire") false).purpose = some "250"
  ∧ (select_rail (some "CA") (some "Wire") false).fx_indicator = some "fixed_to_variable" :=
  (select_rail_priority (some "CA") (some "Wire") false
      { type := "cross_border", subtype := "eft", currency := "CAD",
        purpose := some "250" }).2.2.1 rfl (by decide)

lemma retryGo_of_ok {α : Type} {op : Nat → Except PError α} {a : Nat} {v : α}
    (he : op a = .ok v) (r : Nat) (d : ℚ) :
    retryGo op r a d = ⟨.ok v, [], 1⟩ := by
  rw [retryGo.eq_def, he]

lemma retryGo_of_perm {α : Type} {op : Nat → Except PError α} {a : Nat} {e : PError}
    (he : op a = .error e) (hret : e.retriable = false) (r : Nat) (d : ℚ) :
    retryGo op r a d = ⟨.error e, [], 1⟩ := by
  rw [retryGo.eq_def, he]
  simp [hret]

lemma retryGo_of_retriable_zero {α : Type} {op : Nat → Except PError α} {a : Nat}
    {e : PError} (he : op a = .error e) (hret : e.retriable = true) (d : ℚ) :
    retryGo op 0 a d = ⟨.error e, [], 1⟩ := by
  rw [retryGo.eq_def, he]
  simp [hret]

lemma retryGo_of_retriable_succ {α : Type} {op : Nat → Except PError α} {a : Nat}
    {e : PError} (he : op a = .error e) (hret : e.retriable = true) (r : Nat) (d : ℚ) :
    retryGo op (r + 1) a d =
      ⟨(retryGo op r (a + 1) (min (d * 2) MAX_DELAY)).result,
       (match e.rateHint with
        | some t => min t MAX_DELAY
        | none => min d MAX_DELAY) :: (retryGo op r (a + 1) (min (d * 2) MAX_DELAY)).sleeps,
       (retryGo op r (a + 1) (min (d * 2) MAX_DELAY)).calls + 1⟩ := by
  rw [retryGo.eq_def, he]
  simp [hret]

theorem retryGo_ok_spec {α : Type} (op : Nat → Except PError α) (v : α) :
    ∀ (j r a : Nat) (d : ℚ), j ≤ r →
      (∀ i, i < j → ∃ e, op (a + i) = .error e ∧ e.retriable = true) →
      op (a + j) = .ok v →
      (retryGo op r a d).result = .ok v ∧ (retryGo op r a d).calls = j + 1
  | 0, r, a, d, _, _, hok => by
      simp only [Nat.add_zero] at hok
      rw [retryGo_of_ok hok]
      exact ⟨rfl, rfl⟩
  | j + 1, r, a, d, hle, herr, hok => by
      obtain ⟨e, he, hret⟩ := herr 0 (Nat.succ_pos j)
      simp only [Nat.add_zero] at he
      obtain ⟨r', rfl⟩ : ∃ r', r = r' + 1 := ⟨r - 1, by omega⟩
      have ih := retryGo_ok_spec op v j r' (a + 1) (min (d * 2) MAX_DELAY)
        (by omega)
        (fun i hi => by
          obtain ⟨e', he', hret'⟩ := herr (i + 1) (by omega)
          exact ⟨e', by rw [show a + 1 + i = a + (i + 1) by omega]; exact he', hret'⟩)
        (by rw [show a + 1 + j = a + (j + 1) by omega]; exact hok)
      rw [retryGo_of_retriable_succ he hret]
      exact ⟨ih.1, by simp [ih.2]⟩

theorem retryGo_exhaust_spec {α : Type} (op : Nat → Except PError α) :
    ∀ (r a : Nat) (d : ℚ),
      (∀ i, i ≤ r → ∃ e, op (a + i) = .error e ∧ e.retriable = true) →
      ∃ e, op (a + r) = .error e ∧ e.retriable = true ∧
        (retryGo op r a d).result = .error e ∧ (retryGo op r a d).calls = r + 1
  | 0, a, d, herr => by
      obtain ⟨e, he, hret⟩ := herr 0 (Nat.le_refl 0)
      simp only [Nat.add_zero] at he
      refine ⟨e, by simpa using he, hret, ?_, ?_⟩ <;>
        rw [retryGo_of_retriable_zero he hret]
  | r + 1, a, d, herr => by
      obtain ⟨e, he, hret⟩ := herr 0 (Nat.zero_le _)
      simp only [Nat.add_zero] at he
      obtain ⟨e', he', hret', hres, hcalls⟩ :=
        retryGo_exhaust_spec op r (a + 1) (min (d * 2) MAX_DELAY)
          (fun i hi => by
            obtain ⟨e'', he'', hret''⟩ := herr (i + 1) (by omega)
            exact ⟨e'', by rw [show a + 1 + i = a + (i + 1) by omega]; exact he'', hret''⟩)
      refine ⟨e', by rw [show a + (r + 1) = a + 1 + r by omega]; exact he', hret', ?_, ?_⟩ <;>
        rw [retryGo_of_retriable_succ he hret]
      · exact hres
      · simp [hcalls]

/-- C6: with the default 6 total tries, withRetry invokes the operation exactly
k+1 times and returns the success result when the operation fails retriably
exactly k times and then succeeds (k < 6); a permanent first failure is invoked
exactly once and propagated; when all 6 tries fail retriably the last retriable
error is propagated, still marked retriable and hence distinguishable from a
permanent failure. -/
theorem with_retry_invocation_counts {α : Type} (op : Nat → Except PError α) :
    (∀ (k : Nat) (v : α), k < 6 →
      (∀ i, i < k → ∃ e, op i = .error e ∧ e.retriable = true) →
      op k = .ok v →
      (with_retry op).result = .ok v ∧ (with_retry op).calls = k + 1)
  ∧ (∀ e : PError, op 0 = .error e → e.retriable = false →
      (with_retry op).result = .error e ∧ (with_retry op).calls = 1)
  ∧ ((∀ i, i < 6 → ∃ e, op i = .error e ∧ e.retriable = true) →
      ∃ e, op 5 = .error e ∧ e.retriable = true ∧
        (with_retry op).result = .error e ∧ (with_retry op).calls = 6) := by
  refine ⟨?_, ?_, ?_⟩
  · intro k v hk herr hok
    exact retryGo_ok_spec op v k MAX_RETRIES 0 BASE_DELAY
      (by simp only [MAX_RETRIES]; omega)
      (fun i hi => by rw [Nat.zero_add]; exact herr i hi)
      (by rw [Nat.zero_add]; exact hok)
  · intro e he hret
    constructor <;> rw [with_retry, retryGo_of_perm he hret]
  · intro herr
    obtain ⟨e, he, hret, hres, hcalls⟩ :=
      retryGo_exhaust_spec op MAX_RETRIES 0 BASE_DELAY
        (fun i hi => by
          rw [Nat.zero_add]
          exact herr i (by simp only [MAX_RETRIES] at hi; omega))
    exact ⟨e, by simpa using he, hret, hres, hcalls⟩

/-- C6 witness: two retriable failures then success gives the success result
after three invocations. -/
theorem with_retry_invocation_counts_witness :
    (with_retry (fun n => if n < 2 then .error (.provider "unavailable" 503 true)
        else .ok 42)).result = .ok 42
  ∧ (with_retry (fun n => if n < 2 then .error (.provider "unavailable" 503 true)
        else .ok 42)).calls = 3 :=
  (with_retry_invocation_counts
      (fun n => if n < 2 then .error (.provider "unavailable" 503 true) else .ok 42)).1
    2 42 (by decide)
    (fun i hi => ⟨.provider "unavailable" 503 true, by simp [hi], rfl⟩)
    rfl

lemma min_doubling (d : ℚ) (i : ℕ) :
    min (min (d * 2) MAX_DELAY * 2 ^ i) MAX_DELAY = min (d * 2 ^ (i + 1)) MAX_DELAY := by
  rw [min_mul_of_nonneg _ _ (by positivity : (0:ℚ) ≤ 2 ^ i), min_assoc,
      min_eq_right (le_mul_of_one_le_right (by norm_num [MAX_DELAY])
        (one_le_pow₀ (by norm_num)))]
  congr 1
  ring

theorem retryGo_sleeps_spec {α : Type} (op : Nat → Except PError α) :
    ∀ (i r a : Nat) (d : ℚ) (w : ℚ),
      (retryGo op r a d).sleeps.get? i = some w →
      ∃ e, op (a + i) = .error e ∧ e.retriable = true ∧
        w = (match e.rateHint with
             | some t => min t MAX_DELAY
             | none => min (d * 2 ^ i) MAX_DELAY)
  | i, r, a, d, w => by
    intro h
    cases hop : op a with
    | ok v => rw [retryGo_of_ok hop] at h; simp at h
    | error e =>
      cases hret : e.retriable with
      | false => rw [retryGo_of_perm hop hret] at h; simp at h
      | true =>
        cases r with
        | zero => rw [retryGo_of_retriable_zero hop hret] at h; simp at h
        | succ r' =>
          rw [retryGo_of_retriable_succ hop hret] at h
          cases i with
          | zero =>
            simp only [List.get?_cons_zero, Option.some.injEq] at h
            refine ⟨e, by simpa using hop, hret, ?_⟩
            rw [← h]
            cases e.rateHint <;> simp
          | succ i' =>
            simp only [List.get?_cons_succ] at h
            obtain ⟨e', he', hret', hw⟩ :=
              retryGo_sleeps_spec op i' r' (a + 1) (min (d * 2) MAX_DELAY) w h
            refine ⟨e', by rw [show a + (i' + 1) = a + 1 + i' by omega]; exact he', hret', ?_⟩
            rw [hw]
            cases e'.rateHint <;> simp [min_doubling]

/-- C7 (amended): the wait after the i-th retriable failure (0-indexed here,
when a further attempt remains) equals min(2^i, 30), except that when that
failure is a rate-limit error carrying a non-None, nonzero retry-after hint t,
the wait equals min(t, 30) instead; the doubling sequence is otherwise
unaffected.  (The claim as frozen says any carried hint is used; a hint of 0 is
falsy to Python and ignored, see the counterexample.) -/
theorem with_retry_backoff {α : Type} (op : Nat → Except PError α) (m i : Nat) (w : ℚ)
    (h : (with_retry op m).sleeps.get? i = some w) :
    ∃ e, op i = .error e ∧ e.retriable = true ∧
      w = (match e.rateHint with
           | some t => min t MAX_DELAY
           | none => min (2 ^ i) MAX_DELAY) := by
  obtain ⟨e, he, hret, hw⟩ := retryGo_sleeps_spec op i m 0 BASE_DELAY w h
  refine ⟨e, by simpa using he, hret, ?_⟩
  rw [hw]
  cases e.rateHint <;> simp [BASE_DELAY]

/-- C7 witness: a rate-limit failure with hint 7 sleeps min(7, 30) = 7. -/
theorem with_retry_backoff_witness :
    ∃ e, (fun n => if n = 0 then Except.error (PError.rateLimit "Rate limited" (some 7))
          else Except.ok (1 : Nat)) 0 = Except.error e ∧ e.retriable = true ∧
      (7 : ℚ) = (match e.rateHint with
                 | some t => min t MAX_DELAY
                 | none => min (2 ^ 0) MAX_DELAY) :=
  with_retry_backoff
    (fun n => if n = 0 then Except.error (PError.rateLimit "Rate limited" (some 7))
      else Except.ok (1 : Nat)) MAX_RETRIES 0 7 (by decide)

/-- C7 counterexample: a first failure that is a rate-limit error carrying the
retry-after hint 0 sleeps the computed backoff 1, not min(0, 30) = 0, refuting
the claim as stated. -/
theorem with_retry_backoff_counterexample :
    (with_retry (fun n => if n = 0 then .error (.rateLimit "Rate limited" (some 0))
        else .ok 1)).sleeps = [1]
  ∧ (1 : ℚ) ≠ min 0 MAX_DELAY := by
  constructor
  · decide
  · decide

lemma step_of_ineligible (p : Payout) (prov : PaymentProvider) (c : Nat)
    (ev : LiquidationEvent) (now : String) (h : (eligOf p).eligible = false) :
    _process_single_payout p prov c ev now = ⟨"skipped", skipUpdate now p, 0⟩ := by
  unfold _process_single_payout
  rw [if_pos]
  · rfl
  · simp only [eligOf] at h
    simp [h]

lemma step_of_eligible (p : Payout) (prov : PaymentProvider) (c : Nat)
    (ev : LiquidationEvent) (now : String) (h : (eligOf p).eligible = true) :
    _process_single_payout p prov c ev now =
      finishStep now (stepTrace p prov c ev)
        { applyRail (railOf p) p with status := "processing" } := by
  unfold _process_single_payout
  rw [if_neg]
  · rfl
  · simp only [eligOf] at h
    simp [h]

lemma step_outcome (p : Payout) (prov : PaymentProvider) (c : Nat)
    (ev : LiquidationEvent) (now : String) :
    (_process_single_payout p prov c ev now).outcome = "created"
  ∨ (_process_single_payout p prov c ev now).outcome = "skipped"
  ∨ (_process_single_payout p prov c ev now).outcome = "failed" := by
  cases h : (eligOf p).eligible with
  | false => rw [step_of_ineligible p prov c ev now h]; right; left; rfl
  | true =>
    rw [step_of_eligible p prov c ev now h]
    unfold finishStep
    split
    · left; rfl
    · split
      · right; right; rfl
      · right; right; rfl

lemma runPayouts_counts (prov : PaymentProvider) (ev : LiquidationEvent) (now : String) :
    ∀ (L : List Payout) (s : BatchState),
      (runPayouts prov ev now L s).successes
        + (runPayouts prov ev now L s).skipped
        + (runPayouts prov ev now L s).failures
      = s.successes + s.skipped + s.failures + L.length
  | [], s => rfl
  | p :: rest, s => by
    have ih := runPayouts_counts prov ev now rest
    simp only [runPayouts]
    rcases step_outcome p prov s.counter ev now with h | h | h <;>
      rw [h] <;> simp only [reduceIte] <;> rw [ih] <;> simp <;> omega

lemma gather_length (ev : LiquidationEvent) (table : List Payout) (N : Nat)
    (rid : String) (fresh : Nat → String) :
    ∀ (invs : List Investor) (n : Nat),
      (gatherPayouts ev table N rid fresh invs n).length = invs.length
  | [], _ => rfl
  | inv :: rest, n => by
    simp only [gatherPayouts]
    cases existingFor table ev.id inv.id <;>
      simp [gather_length ev table N rid fresh rest]

/-- C8: for every run that reaches COMPLETED status (i.e. the event is found),
created_count + skipped_count + failed_count equals the number of recipients
processed by the run. -/
theorem run_counts_total (events : List LiquidationEvent) (investors : List Investor)
    (table : List Payout) (eid : String) (prov : PaymentProvider) (rid : String)
    (fresh : Nat → String) (now : String) (ev : LiquidationEvent)
    (hev : events.find? (fun e => e.id == eid) = some ev) :
    (execute_run events investors table eid prov rid fresh now).run.status = "completed"
  ∧ (execute_run events investors table eid prov rid fresh now).run.created_count
      + (execute_run events investors table eid prov rid fresh now).run.skipped_count
      + (execute_run events investors table eid prov rid fresh now).run.failed_count
    = investors.length := by
  unfold execute_run
  rw [hev]
  refine ⟨rfl, ?_⟩
  have h1 := runPayouts_counts prov ev now
    (gatherPayouts ev table investors.length rid fresh investors 0) ⟨[], 0, 0, 0, [], 0⟩
  have h2 := gather_length ev table investors.length rid fresh investors 0
  simp only at h1 ⊢
  omega

/-- C8 witness: a one-recipient run completes with counts summing to 1. -/
theorem run_counts_total_witness :
    (execute_run [sampleEvent] [cryptoInvestor] [] "LIQ-1" okProvider "RUN-1"
        (fun _ => "PID-0") "now").run.status = "completed"
  ∧ (execute_run [sampleEvent] [cryptoInvestor] [] "LIQ-1" okProvider "RUN-1"
        (fun _ => "PID-0") "now").run.created_count
    + (execute_run [sampleEvent] [cryptoInvestor] [] "LIQ-1" okProvider "RUN-1"
        (fun _ => "PID-0") "now").run.skipped_count
    + (execute_run [sampleEvent] [cryptoInvestor] [] "LIQ-1" okProvider "RUN-1"
        (fun _ => "PID-0") "now").run.failed_count
    = [cryptoInvestor].length :=
  run_counts_total [sampleEvent] [cryptoInvestor] [] "LIQ-1" okProvider "RUN-1"
    (fun _ => "PID-0") "now" sampleEvent (by decide)

lemma eligOf_truthy (p : Payout) (h : pyTruthy p.payment_order_id = true) :
    eligOf p = { eligible := false
                 skip_reason := some .EXISTING_PAYMENT_ORDER
                 message := "Payment order already exists: " ++ pyStrOpt p.payment_order_id } := by
  unfold eligOf check_eligibility
  rw [if_pos h]

lemma skipUpdate_of_truthy (now : String) (p : Payout)
    (h : pyTruthy p.payment_order_id = true) :
    (skipUpdate now p).status = "skipped"
  ∧ (skipUpdate now p).skip_reason = some "existing_payment_order"
  ∧ (skipUpdate now p).run_id = p.run_id
  ∧ (skipUpdate now p).payment_order_id = p.payment_order_id
  ∧ (skipUpdate now p).rail = p.rail
  ∧ (skipUpdate now p).rail_subtype = p.rail_subtype
  ∧ (skipUpdate now p).rail_currency = p.rail_currency
  ∧ (skipUpdate now p).fx_indicator = p.fx_indicator := by
  unfold skipUpdate
  rw [eligOf_truthy p h]
  exact ⟨rfl, rfl, rfl, rfl, rfl, rfl, rfl, rfl⟩

lemma step_of_truthy (p : Payout) (prov : PaymentProvider) (c : Nat)
    (ev : LiquidationEvent) (now : String) (h : pyTruthy p.payment_order_id = true) :
    _process_single_payout p prov c ev now = ⟨"skipped", skipUpdate now p, 0⟩ :=
  step_of_ineligible p prov c ev now (by rw [eligOf_truthy p h])

lemma runPayouts_append (prov : PaymentProvider) (ev : LiquidationEvent) (now : String) :
    ∀ (L1 L2 : List Payout) (s : BatchState),
      runPayouts prov ev now (L1 ++ L2) s
        = runPayouts prov ev now L2 (runPayouts prov ev now L1 s)
  | [], L2, s => rfl
  | p :: L1, L2, s => by
      simp only [List.cons_append, runPayouts]
      exact runPayouts_append prov ev now L1 L2 _

lemma runPayouts_cons_of_skip (prov : PaymentProvider) (ev : LiquidationEvent)
    (now : String) (p : Payout) (L : List Payout) (s : BatchState) (r : String)
    (hstep : ∀ c, _process_single_payout p prov c ev now = ⟨"skipped", skipUpdate now p, 0⟩)
    (hreason : (skipUpdate now p).skip_reason = some r) (hr : r ≠ "") :
    runPayouts prov ev now (p :: L) s =
      runPayouts prov ev now L
        { s with payouts := s.payouts ++ [skipUpdate now p]
                 skipped := s.skipped + 1
                 skip_counts := bumpCounter s.skip_counts r } := by
  simp only [runPayouts, hstep s.counter]
  norm_num [pyTruthy, hreason, hr, pyStrOpt]
  rw [if_neg (by decide)]

/-- C1 (amended): in every run, a payout whose provider order identifier is
non-null AND non-empty at the moment its eligibility is checked is marked
skipped with reason EXISTING_PAYMENT_ORDER, its per-payout step performs zero
provider invocations, and the run passes through that skip step with the
provider-invocation counter unchanged.  (The claim as frozen says any non-null
identifier; an empty string slips through, see the counterexample.) -/
theorem existing_order_never_resubmitted (events : List LiquidationEvent)
    (investors : List Investor) (table : List Payout) (eid : String)
    (prov : PaymentProvider) (rid : String) (fresh : Nat → String) (now : String)
    (ev : LiquidationEvent) (hev : events.find? (fun e => e.id == eid) = some ev)
    (L1 : List Payout) (p : Payout) (L2 : List Payout)
    (hsplit : gatherPayouts ev table investors.length rid fresh investors 0 = L1 ++ p :: L2)
    (htruthy : pyTruthy p.payment_order_id = true) :
    (∀ c, _process_single_payout p prov c ev now = ⟨"skipped", skipUpdate now p, 0⟩)
  ∧ (skipUpdate now p).status = "skipped"
  ∧ (skipUpdate now p).skip_reason = some "existing_payment_order"
  ∧ (execute_run events investors table eid prov rid fresh now).processed =
      (runPayouts prov ev now L2
        { runPayouts prov ev now L1 ⟨[], 0, 0, 0, [], 0⟩ with
          payouts := (runPayouts prov ev now L1 ⟨[], 0, 0, 0, [], 0⟩).payouts
            ++ [skipUpdate now p]
          skipped := (runPayouts prov ev now L1 ⟨[], 0, 0, 0, [], 0⟩).skipped + 1
          skip_counts := bumpCounter
            (runPayouts prov ev now L1 ⟨[], 0, 0, 0, [], 0⟩).skip_counts
            "existing_payment_order" }).payouts := by
  have hs := skipUpdate_of_truthy now p htruthy
  refine ⟨fun c => step_of_truthy p prov c ev now htruthy, hs.1, hs.2.1, ?_⟩
  unfold execute_run
  rw [hev]
  dsimp only
  rw [hsplit, runPayouts_append,
      runPayouts_cons_of_skip prov ev now p L2 _ "existing_payment_order"
        (fun c => step_of_truthy p prov c ev now htruthy) hs.2.1 (by decide)]

/-- C1 witness: a completed payout with order id "po_1" is skipped with reason
EXISTING_PAYMENT_ORDER and zero provider calls. -/
theorem existing_order_never_resubmitted_witness :
    _process_single_payout completedPayout okProvider 0 sampleEvent "now"
      = ⟨"skipped", skipUpdate "now" completedPayout, 0⟩
  ∧ (skipUpdate "now" completedPayout).status = "skipped"
  ∧ (skipUpdate "now" completedPayout).skip_reason = some "existing_payment_order" := by
  have h := existing_order_never_resubmitted [sampleEvent] [aliceInvestor]
    [completedPayout] "LIQ-1" okProvider "RUN-1" (fun _ => "PID-0") "now"
    sampleEvent (by decide) [] completedPayout [] (by decide) (by decide)
  exact ⟨h.1 0, h.2.1, h.2.2.1⟩

/-- C1 counterexample: a payout whose order id is the empty string (non-null) is
NOT skipped — the run invokes the provider once for it and completes it,
refuting the claim as stated. -/
theorem existing_order_never_resubmitted_counterexample :
    emptyOidPayout.payment_order_id = some ""
  ∧ (execute_run [sampleEvent] [aliceInvestor] [emptyOidPayout] "LIQ-1" okProvider
      "RUN-1" (fun _ => "PID-0") "now").calls = 1
  ∧ ((execute_run [sampleEvent] [aliceInvestor] [emptyOidPayout] "LIQ-1" okProvider
      "RUN-1" (fun _ => "PID-0") "now").processed.head?.map Payout.status)
      = some "completed" := by
  refine ⟨rfl, ?_, ?_⟩ <;> decide

lemma append_note_some (now s m : String) :
    append_note now (some s) m
      = if s = "" then "[" ++ now ++ "] " ++ m
        else s ++ "\n" ++ ("[" ++ now ++ "] " ++ m) := by
  unfold append_note
  by_cases hs : s = ""
  · subst hs
    rfl
  · rw [if_neg hs, if_neg (by simp [pyTruthy, hs])]
    rfl

lemma append_note_changes (now : String) (o : Option String) (m : String) :
    some (append_note now o m) ≠ o := by
  cases o with
  | none => exact Option.some_ne_none _
  | some s =>
    intro hsome
    injection hsome with h
    rw [append_note_some] at h
    by_cases hs : s = ""
    · rw [if_pos hs] at h
      apply_fun String.length at h
      rw [hs] at h
      simp [String.length_append] at h
      exact absurd h.1.1.1 (by decide)
    · rw [if_neg hs] at h
      apply_fun String.length at h
      simp only [String.length_append] at h
      have h1 : "\n".length = 1 := rfl
      omega

lemma attach_of_terminal (rid : String) (p : Payout)
    (hterm : p.status = "completed" ∨ p.status = "skipped") :
    attachPayout rid p = p := by
  unfold attachPayout
  rw [if_neg]
  rcases hterm with h | h <;> simp [h]

/-- C3 (amended): a payout that is completed or skipped at the start of the run
is never reattached (attachPayout leaves it unchanged, run_id included), but it
IS reprocessed by the per-payout transition: when it holds a non-empty provider
order id the transition skips it with reason EXISTING_PAYMENT_ORDER and zero
provider calls, leaving run_id, order id and routing fields unchanged but
changing its status to skipped and appending a note.  (The claim as frozen says
status, skip reason and notes are unchanged; see the counterexample.) -/
theorem terminal_payout_reprocessing (events : List LiquidationEvent)
    (investors : List Investor) (table : List Payout) (eid : String)
    (prov : PaymentProvider) (rid : String) (fresh : Nat → String) (now : String)
    (ev : LiquidationEvent) (hev : events.find? (fun e => e.id == eid) = some ev)
    (L1 : List Payout) (p : Payout) (L2 : List Payout)
    (hsplit : gatherPayouts ev table investors.length rid fresh investors 0 = L1 ++ p :: L2)
    (hterm : p.status = "completed" ∨ p.status = "skipped") :
    attachPayout rid p = p
  ∧ (pyTruthy p.payment_order_id = true →
        (∀ c, _process_single_payout p prov c ev now = ⟨"skipped", skipUpdate now p, 0⟩)
      ∧ (skipUpdate now p).status = "skipped"
      ∧ (skipUpdate now p).skip_reason = some "existing_payment_order"
      ∧ (skipUpdate now p).run_id = p.run_id
      ∧ (skipUpdate now p).payment_order_id = p.payment_order_id
      ∧ (skipUpdate now p).rail = p.rail
      ∧ (skipUpdate now p).rail_subtype = p.rail_subtype
      ∧ (skipUpdate now p).rail_currency = p.rail_currency
      ∧ (skipUpdate now p).fx_indicator = p.fx_indicator
      ∧ (skipUpdate now p).notes ≠ p.notes) := by
  refine ⟨attach_of_terminal rid p hterm, fun htruthy => ?_⟩
  have hs := skipUpdate_of_truthy now p htruthy
  refine ⟨fun c => step_of_truthy p prov c ev now htruthy,
    hs.1, hs.2.1, hs.2.2.1, hs.2.2.2.1, hs.2.2.2.2.1, hs.2.2.2.2.2.1,
    hs.2.2.2.2.2.2.1, hs.2.2.2.2.2.2.2, ?_⟩
  rw [show (skipUpdate now p).notes
      = some (append_note now p.notes ("Skipped: " ++ (eligOf p).message)) from rfl]
  exact append_note_changes now p.notes _

/-- C3 witness: a completed payout is left unattached and its reprocessing step
skips it, changing its notes. -/
theorem terminal_payout_reprocessing_witness :
    attachPayout "RUN-1" completedPayout = completedPayout
  ∧ _process_single_payout completedPayout okProvider 0 sampleEvent "now"
      = ⟨"skipped", skipUpdate "now" completedPayout, 0⟩
  ∧ (skipUpdate "now" completedPayout).status = "skipped"
  ∧ (skipUpdate "now" completedPayout).notes ≠ completedPayout.notes := by
  have h := terminal_payout_reprocessing [sampleEvent] [aliceInvestor]
    [completedPayout] "LIQ-1" okProvider "RUN-1" (fun _ => "PID-0") "now"
    sampleEvent (by decide) [] completedPayout [] (by decide) (Or.inl rfl)
  have h2 := h.2 (by decide)
  exact ⟨h.1, h2.1 0, h2.2.1, h2.2.2.2.2.2.2.2.2.2⟩

/-- C3 counterexample: a payout completed before the run ends the run with
status skipped and skip reason EXISTING_PAYMENT_ORDER — its status and skip
reason are NOT unchanged, refuting the claim as stated. -/
theorem terminal_payout_reprocessing_counterexample :
    completedPayout.status = "completed"
  ∧ ((execute_run [sampleEvent] [aliceInvestor] [completedPayout] "LIQ-1" okProvider
      "RUN-1" (fun _ => "PID-0") "now").processed.head?.map Payout.status)
      = some "skipped"
  ∧ ((execute_run [sampleEvent] [aliceInvestor] [completedPayout] "LIQ-1" okProvider
      "RUN-1" (fun _ => "PID-0") "now").processed.head?.map Payout.skip_reason)
      = some (some "existing_payment_order") := by
  refine ⟨rfl, ?_, ?_⟩ <;> decide

lemma eligOf_skipUpdate (now : String) (p : Payout) :
    eligOf (skipUpdate now p) = eligOf p := rfl

lemma step_ok (prov : PaymentProvider) (ev : LiquidationEvent) (now : String)
    (hprov : ∀ n req, ∃ r, prov n req = .ok r ∧ r.payment_order_id ≠ "")
    (p : Payout) (c : Nat) :
    ((eligOf p).eligible = false ∧
       _process_single_payout p prov c ev now = ⟨"skipped", skipUpdate now p, 0⟩)
  ∨ ((eligOf p).eligible = true
      ∧ (_process_single_payout p prov c ev now).outcome = "created"
      ∧ (_process_single_payout p prov c ev now).payout.status = "completed"
      ∧ pyTruthy (_process_single_payout p prov c ev now).payout.payment_order_id = true
      ∧ (_process_single_payout p prov c ev now).payout.investor_id = p.investor_id
      ∧ (_process_single_payout p prov c ev now).payout.liquidation_event_id
          = p.liquidation_event_id) := by
  cases helig : (eligOf p).eligible with
  | false => exact Or.inl ⟨rfl, step_of_ineligible p prov c ev now helig⟩
  | true =>
    right
    rw [step_of_eligible p prov c ev now helig]
    obtain ⟨r, hr, hne⟩ :=
      hprov c (buildRequest (railOf p) (applyRail (railOf p) p) ev)
    have hop : (fun n => prov (c + n)
        (buildRequest (railOf p) (applyRail (railOf p) p) ev)) 0 = .ok r := by
      simpa using hr
    have htr : stepTrace p prov c ev = ⟨.ok r, [], 1⟩ := by
      unfold stepTrace with_retry
      exact retryGo_of_ok hop MAX_RETRIES BASE_DELAY
    rw [htr]
    refine ⟨rfl, rfl, rfl, ?_, rfl, rfl⟩
    simp [finishStep, pyTruthy, hne]

lemma runPayouts_cons_skip (prov : PaymentProvider) (ev : LiquidationEvent)
    (now : String) (p : Payout) (L : List Payout) (s : BatchState)
    (hstep : _process_single_payout p prov s.counter ev now
        = ⟨"skipped", skipUpdate now p, 0⟩) :
    runPayouts prov ev now (p :: L) s =
      runPayouts prov ev now L
        { s with payouts := s.payouts ++ [skipUpdate now p]
                 skipped := s.skipped + 1
                 skip_counts :=
                   if pyTruthy (skipUpdate now p).skip_reason = true then
                     bumpCounter s.skip_counts (pyStrOpt (skipUpdate now p).skip_reason)
                   else s.skip_counts } := by
  simp only [runPayouts, hstep, if_true]
  simp

lemma runPayouts_cons_created (prov : PaymentProvider) (ev : LiquidationEvent)
    (now : String) (p : Payout) (L : List Payout) (s : BatchState)
    (hout : (_process_single_payout p prov s.counter ev now).outcome = "created") :
    runPayouts prov ev now (p :: L) s =
      runPayouts prov ev now L
        { s with payouts := s.payouts
                   ++ [(_process_single_payout p prov s.counter ev now).payout]
                 successes := s.successes + 1
                 counter := s.counter
                   + (_process_single_payout p prov s.counter ev now).calls } := by
  simp only [runPayouts]
  rw [hout, if_pos rfl]

lemma runPayouts_ok (prov : PaymentProvider) (ev : LiquidationEvent) (now : String)
    (hprov : ∀ n req, ∃ r, prov n req = .ok r ∧ r.payment_order_id ≠ "") :
    ∀ (L : List Payout) (s : BatchState),
      ∃ Q, (runPayouts prov ev now L s).payouts = s.payouts ++ Q
        ∧ List.Forall₂ (OkPost now) L Q
        ∧ (runPayouts prov ev now L s).successes
            = s.successes + (L.countP fun p => (eligOf p).eligible)
        ∧ (runPayouts prov ev now L s).skipped
            = s.skipped + (L.countP fun p => !(eligOf p).eligible)
        ∧ (runPayouts prov ev now L s).failures = s.failures
  | [], s => ⟨[], by simp [runPayouts], List.Forall₂.nil,
      by simp [runPayouts], by simp [runPayouts], rfl⟩
  | p :: L, s => by
    rcases step_ok prov ev now hprov p s.counter with
      ⟨helig, hstep⟩ | ⟨helig, hout, hst, hoid, hinv, hevent⟩
    · rw [runPayouts_cons_skip prov ev now p L s hstep]
      obtain ⟨Q, hp, hf2, hsuc, hskip, hfail⟩ := runPayouts_ok prov ev now hprov L _
      refine ⟨skipUpdate now p :: Q, ?_,
        List.Forall₂.cons (Or.inl ⟨helig, rfl⟩) hf2, ?_, ?_, ?_⟩
      · rw [hp]
        simp
      · rw [hsuc]
        simp [List.countP_cons, helig]
      · rw [hskip]
        simp [List.countP_cons, helig]
        omega
      · rw [hfail]
    · rw [runPayouts_cons_created prov ev now p L s hout]
      obtain ⟨Q, hp, hf2, hsuc, hskip, hfail⟩ := runPayouts_ok prov ev now hprov L _
      refine ⟨(_process_single_payout p prov s.counter ev now).payout :: Q, ?_,
        List.Forall₂.cons (Or.inr ⟨helig, hst, hoid, hinv, hevent⟩) hf2, ?_, ?_, ?_⟩
      · rw [hp]
        simp
      · rw [hsuc]
        simp [List.countP_cons, helig]
        omega
      · rw [hskip]
        simp [List.countP_cons, helig]
      · rw [hfail]

lemma countP_add_countP_not {α : Type} (f : α → Bool) :
    ∀ L : List α, L.countP f + L.countP (fun p => !(f p)) = L.length
  | [] => rfl
  | a :: L => by
    have ih := countP_add_countP_not f L
    simp only [List.countP_cons, List.length_cons]
    cases h : f a <;> simp [h] <;> omega

lemma forall₂_mem_right {α β : Type} {R : α → β → Prop} :
    ∀ {l1 : List α} {l2 : List β}, List.Forall₂ R l1 l2 →
      ∀ b ∈ l2, ∃ a ∈ l1, R a b := by
  intro l1 l2 h
  induction h with
  | nil => exact fun b hb => absurd hb (List.not_mem_nil b)
  | cons hR hF ih =>
    intro b hb
    rcases List.mem_cons.1 hb with rfl | hb'
    · exact ⟨_, List.mem_cons_self _ _, hR⟩
    · obtain ⟨a, ha, hr⟩ := ih b hb'
      exact ⟨a, List.mem_cons_of_mem _ ha, hr⟩

lemma forall₂_comp {α β γ : Type} {R : α → β → Prop} {S : β → γ → Prop}
    {T : α → γ → Prop} (h : ∀ a b c, R a b → S b c → T a c) :
    ∀ {l1 : List α} {l2 : List β} {l3 : List γ},
      List.Forall₂ R l1 l2 → List.Forall₂ S l2 l3 → List.Forall₂ T l1 l3 := by
  intro l1 l2 l3 h12
  induction h12 generalizing l3 with
  | nil =>
    intro h23
    cases h23
    exact List.Forall₂.nil
  | cons hR hF ih =>
    intro h23
    cases h23 with
    | cons hS hF' => exact List.Forall₂.cons (h _ _ _ hR hS) (ih hF')

lemma forall₂_eq_map {α β : Type} {f : α → β} :
    ∀ {L : List α} {Q : List β},
      List.Forall₂ (fun p q => q = f p) L Q → Q = L.map f := by
  intro L Q h
  induction h with
  | nil => rfl
  | cons hR hF ih => simp [hR, ih]

lemma existingFor_clean (table : List Payout) (eid iid : String)
    (h : ∀ p ∈ table, p.liquidation_event_id ≠ eid) :
    existingFor table eid iid = none := by
  unfold existingFor
  rw [show table.filter (fun p => p.liquidation_event_id == eid) = [] from
    List.filter_eq_nil_iff.2 (fun p hp => by simp [h p hp])]
  rfl

lemma gather_clean (ev : LiquidationEvent) (table : List Payout) (N : Nat)
    (rid : String) (fresh : Nat → String)
    (hclean : ∀ p ∈ table, p.liquidation_event_id ≠ ev.id) :
    ∀ (invs : List Investor) (n : Nat),
      List.Forall₂ (fun inv q => ∃ pid, q = buildPayout ev N rid pid inv)
        invs (gatherPayouts ev table N rid fresh invs n)
  | [], _ => List.Forall₂.nil
  | inv :: rest, n => by
    simp only [gatherPayouts, existingFor_clean table ev.id inv.id hclean]
    exact List.Forall₂.cons ⟨fresh n, rfl⟩
      (gather_clean ev table N rid fresh hclean rest (n + 1))

lemma run1row_of_built_ok (ev : LiquidationEvent) (N : Nat) (rid now : String) :
    ∀ (inv : Investor) (g q : Payout),
      (∃ pid, g = buildPayout ev N rid pid inv) → OkPost now g q →
      Run1Row ev inv q := by
  rintro inv g q ⟨pid, rfl⟩ hok
  rcases hok with ⟨helig, rfl⟩ | ⟨helig, hst, hoid, hinv, hevent⟩
  · refine ⟨rfl, rfl, Or.inr rfl, ?_, ?_⟩
    · rw [eligOf_skipUpdate]
      exact helig
    · intro h
      rw [show (skipUpdate now (buildPayout ev N rid pid inv)).status = "skipped"
          from rfl] at h
      exact absurd h (by decide)
  · exact ⟨hinv, hevent, Or.inl hst, by rw [eligOf_truthy q hoid], fun _ => hoid⟩

lemma gather_matching (ev : LiquidationEvent) (N : Nat) (rid : String)
    (fresh : Nat → String) :
    ∀ (invs : List Investor) (Q pre : List Payout) (n : Nat),
      List.Forall₂ (Run1Row ev) invs Q →
      (invs.map Investor.id).Nodup →
      (∀ p ∈ pre, p.liquidation_event_id = ev.id →
        p.investor_id ∉ invs.map Investor.id) →
      gatherPayouts ev (pre ++ Q) N rid fresh invs n = Q := by
  intro invs
  induction invs with
  | nil =>
    intro Q pre n hF _ _
    rw [List.forall₂_nil_left_iff.1 hF]
    rfl
  | cons inv rest ih =>
    intro Q pre n hF hnd hpre
    obtain ⟨b, l2, hR, hF', rfl⟩ := List.forall₂_cons_left_iff.1 hF
    obtain ⟨hinv, hevent, hterm, -, -⟩ := hR
    simp only [List.map_cons, List.nodup_cons] at hnd
    obtain ⟨hnotin, hnd'⟩ := hnd
    have hQ'mem : ∀ q' ∈ l2, ∃ inv' ∈ rest, Run1Row ev inv' q' :=
      forall₂_mem_right hF'
    have hfilterQ' : l2.filter (fun p => p.liquidation_event_id == ev.id) = l2 := by
      rw [List.filter_eq_self]
      intro q' hq'
      obtain ⟨inv', _, hrow⟩ := hQ'mem q' hq'
      simp [hrow.2.1]
    have hfilterQ'2 : l2.filter (fun p => p.investor_id == inv.id) = [] := by
      rw [List.filter_eq_nil_iff]
      intro q' hq'
      obtain ⟨inv', hinv', hrow⟩ := hQ'mem q' hq'
      have hne : inv'.id ≠ inv.id := fun h =>
        hnotin (h ▸ List.mem_map_of_mem Investor.id hinv')
      simp [hrow.1, hne]
    have hfilterpre : (pre.filter (fun p => p.liquidation_event_id == ev.id)).filter
        (fun p => p.investor_id == inv.id) = [] := by
      rw [List.filter_eq_nil_iff]
      intro p hp
      obtain ⟨hpPre, hpEv⟩ := List.mem_filter.1 hp
      have hnm := hpre p hpPre (by simpa using hpEv)
      simp only [List.map_cons, List.mem_cons] at hnm
      push_neg at hnm
      simp [hnm.1]
    have hlook : existingFor (pre ++ b :: l2) ev.id inv.id = some b := by
      unfold existingFor
      rw [List.filter_append,
          show (b :: l2).filter (fun p => p.liquidation_event_id == ev.id) = b :: l2
            from by rw [List.filter_cons_of_pos (by simp [hevent]), hfilterQ'],
          List.filter_append, hfilterpre,
          show (b :: l2).filter (fun p => p.investor_id == inv.id) = [b]
            from by rw [List.filter_cons_of_pos (by simp [hinv]), hfilterQ'2]]
      rfl
    simp only [gatherPayouts, hlook]
    rw [attach_of_terminal rid b hterm]
    congr 1
    rw [show pre ++ b :: l2 = (pre ++ [b]) ++ l2 from by simp]
    apply ih l2 (pre ++ [b]) n hF' hnd'
    intro p hp hpev
    rcases List.mem_append.1 hp with hp' | hp'
    · intro hmem
      exact hpre p hp' hpev (List.mem_cons_of_mem _ hmem)
    · have hpb : p = b := by simpa using hp'
      subst hpb
      rw [hinv]
      exact hnotin

lemma forall₂_okpost_all_skip (now : String) :
    ∀ {L Q : List Payout}, (∀ q ∈ L, (eligOf q).eligible = false) →
      List.Forall₂ (OkPost now) L Q → Q = L.map (skipUpdate now) := by
  intro L Q hL h
  induction h with
  | nil => rfl
  | cons hR hF ih =>
    rename_i p q L' Q'
    rcases hR with ⟨-, rfl⟩ | ⟨helig, -⟩
    · rw [List.map_cons]
      rw [ih (fun q hq => hL q (List.mem_cons_of_mem _ hq))]
    · exact absurd helig (by simp [hL p (List.mem_cons_self _ _)])

/-- C2 (amended): running the orchestrator twice against the same event with
always-succeeding providers (non-empty order ids), distinct investor ids and no
pre-existing payouts for the event yields, on the second run, created_count = 0,
failed_count = 0 and skipped_count equal to the FIRST run's created_count plus
skipped_count (the total number of payouts), the second run reprocessing
exactly the first run's rows into their skip-updates; every payout completed in
the first run fires the existing-order-id check (skip reason
EXISTING_PAYMENT_ORDER).  (The claim as frozen equates the second run's
skipped_count with the first run's eligible count alone; payouts skipped in the
first run are skipped again, see the counterexample.) -/
theorem second_run_idempotent
    (events : List LiquidationEvent) (investors : List Investor)
    (table : List Payout) (eid : String) (prov1 prov2 : PaymentProvider)
    (rid1 rid2 : String) (fresh1 fresh2 : Nat → String) (now1 now2 : String)
    (ev : LiquidationEvent) (hev : events.find? (fun e => e.id == eid) = some ev)
    (hclean : ∀ p ∈ table, p.liquidation_event_id ≠ ev.id)
    (hnodup : (investors.map Investor.id).Nodup)
    (hprov1 : ∀ n req, ∃ r, prov1 n req = .ok r ∧ r.payment_order_id ≠ "")
    (hprov2 : ∀ n req, ∃ r, prov2 n req = .ok r ∧ r.payment_order_id ≠ "") :
    (execute_run events investors
        (execute_run events investors table eid prov1 rid1 fresh1 now1).table
        eid prov2 rid2 fresh2 now2).run.created_count = 0
  ∧ (execute_run events investors
        (execute_run events investors table eid prov1 rid1 fresh1 now1).table
        eid prov2 rid2 fresh2 now2).run.skipped_count
      = (execute_run events investors table eid prov1 rid1 fresh1 now1).run.created_count
      + (execute_run events investors table eid prov1 rid1 fresh1 now1).run.skipped_count
  ∧ (execute_run events investors
        (execute_run events investors table eid prov1 rid1 fresh1 now1).table
        eid prov2 rid2 fresh2 now2).run.failed_count = 0
  ∧ (execute_run events investors
        (execute_run events investors table eid prov1 rid1 fresh1 now1).table
        eid prov2 rid2 fresh2 now2).processed
      = (execute_run events investors table eid prov1 rid1 fresh1 now1).processed.map
          (skipUpdate now2)
  ∧ (∀ q ∈ (execute_run events investors table eid prov1 rid1 fresh1 now1).processed,
        q.status = "completed" →
        (skipUpdate now2 q).skip_reason = some "existing_payment_order") := by
  -- run 1 components
  obtain ⟨Q1, hp1, hf1, hsuc1, hskip1, hfail1⟩ :=
    runPayouts_ok prov1 ev now1 hprov1
      (gatherPayouts ev table investors.length rid1 fresh1 investors 0)
      ⟨[], 0, 0, 0, [], 0⟩
  simp only [List.nil_append] at hp1
  have hbuilt := gather_clean ev table investors.length rid1 fresh1 hclean investors 0
  have hIQ : List.Forall₂ (Run1Row ev) investors Q1 :=
    forall₂_comp (run1row_of_built_ok ev investors.length rid1 now1) hbuilt hf1
  -- run-1 projections
  have hr1proc : (execute_run events investors table eid prov1 rid1 fresh1 now1).processed
      = Q1 := by
    unfold execute_run
    rw [hev]
    exact hp1
  have hr1created : (execute_run events investors table eid prov1 rid1 fresh1 now1).run.created_count
      = (gatherPayouts ev table investors.length rid1 fresh1 investors 0).countP
          (fun p => (eligOf p).eligible) := by
    unfold execute_run
    rw [hev]
    simpa using hsuc1
  have hr1skipped : (execute_run events investors table eid prov1 rid1 fresh1 now1).run.skipped_count
      = (gatherPayouts ev table investors.length rid1 fresh1 investors 0).countP
          (fun p => !(eligOf p).eligible) := by
    unfold execute_run
    rw [hev]
    simpa using hskip1
  have hr1table : (execute_run events investors table eid prov1 rid1 fresh1 now1).table
      = (table.filter fun p => ¬ pickedUp table ev.id investors p) ++ Q1 := by
    unfold execute_run
    rw [hev]
    exact congrArg
      (fun x => (table.filter fun p => ¬ pickedUp table ev.id investors p) ++ x) hp1
  -- the second run gathers exactly the first run's processed rows
  have hg2 : gatherPayouts ev
      ((table.filter fun p => ¬ pickedUp table ev.id investors p) ++ Q1)
      investors.length rid2 fresh2 investors 0 = Q1 := by
    apply gather_matching ev investors.length rid2 fresh2 investors Q1 _ 0 hIQ hnodup
    intro p hp hpev
    exact absurd hpev (hclean p (List.mem_of_mem_filter hp))
  -- all the rows the second run sees are ineligible
  have hinelig : ∀ q ∈ Q1, (eligOf q).eligible = false := by
    intro q hq
    obtain ⟨inv, -, hrow⟩ := forall₂_mem_right hIQ q hq
    exact hrow.2.2.2.1
  -- run 2 components
  obtain ⟨Q2, hp2, hf2, hsuc2, hskip2, hfail2⟩ :=
    runPayouts_ok prov2 ev now2 hprov2 Q1 ⟨[], 0, 0, 0, [], 0⟩
  simp only [List.nil_append] at hp2
  have hQ2 : Q2 = Q1.map (skipUpdate now2) := forall₂_okpost_all_skip now2 hinelig hf2
  have hr2proc : (execute_run events investors
      (execute_run events investors table eid prov1 rid1 fresh1 now1).table
      eid prov2 rid2 fresh2 now2).processed = Q2 := by
    rw [hr1table]
    unfold execute_run
    rw [hev]
    show (runPayouts prov2 ev now2 (gatherPayouts ev
        ((table.filter fun p => ¬ pickedUp table ev.id investors p) ++ Q1)
        investors.length rid2 fresh2 investors 0) ⟨[], 0, 0, 0, [], 0⟩).payouts = Q2
    rw [hg2]
    exact hp2
  have hr2created : (execute_run events investors
      (execute_run events investors table eid prov1 rid1 fresh1 now1).table
      eid prov2 rid2 fresh2 now2).run.created_count
      = Q1.countP (fun p => (eligOf p).eligible) := by
    rw [hr1table]
    unfold execute_run
    rw [hev]
    show (runPayouts prov2 ev now2 (gatherPayouts ev
        ((table.filter fun p => ¬ pickedUp table ev.id investors p) ++ Q1)
        investors.length rid2 fresh2 investors 0) ⟨[], 0, 0, 0, [], 0⟩).successes = Q1.countP (fun p => (eligOf p).eligible)
    rw [hg2]
    simpa using hsuc2
  have hr2skipped : (execute_run events investors
      (execute_run events investors table eid prov1 rid1 fresh1 now1).table
      eid prov2 rid2 fresh2 now2).run.skipped_count
      = Q1.countP (fun p => !(eligOf p).eligible) := by
    rw [hr1table]
    unfold execute_run
    rw [hev]
    show (runPayouts prov2 ev now2 (gatherPayouts ev
        ((table.filter fun p => ¬ pickedUp table ev.id investors p) ++ Q1)
        investors.length rid2 fresh2 investors 0) ⟨[], 0, 0, 0, [], 0⟩).skipped = Q1.countP (fun p => !(eligOf p).eligible)
    rw [hg2]
    simpa using hskip2
  have hr2failed : (execute_run events investors
      (execute_run events investors table eid prov1 rid1 fresh1 now1).table
      eid prov2 rid2 fresh2 now2).run.failed_count = 0 := by
    rw [hr1table]
    unfold execute_run
    rw [hev]
    show (runPayouts prov2 ev now2 (gatherPayouts ev
        ((table.filter fun p => ¬ pickedUp table ev.id investors p) ++ Q1)
        investors.length rid2 fresh2 investors 0) ⟨[], 0, 0, 0, [], 0⟩).failures = 0
    rw [hg2]
    simpa using hfail2
  refine ⟨?_, ?_, hr2failed, ?_, ?_⟩
  · rw [hr2created]
    rw [List.countP_eq_zero]
    intro q hq
    simp [hinelig q hq]
  · rw [hr2skipped, hr1created, hr1skipped]
    have hlen1 : (gatherPayouts ev table investors.length rid1 fresh1 investors 0).length
        = Q1.length := hf1.length_eq
    have hcnt := countP_add_countP_not (fun p => (eligOf p).eligible)
      (gatherPayouts ev table investors.length rid1 fresh1 investors 0)
    have hcnt2 : Q1.countP (fun p => !(eligOf p).eligible) = Q1.length := by
      rw [List.countP_eq_length]
      intro q hq
      simp [hinelig q hq]
    omega
  · rw [hr2proc, hr1proc, hQ2]
  · intro q hq hcomp
    rw [hr1proc] at hq
    obtain ⟨inv, -, hrow⟩ := forall₂_mem_right hIQ q hq
    exact (skipUpdate_of_truthy now2 q (hrow.2.2.2.2 hcomp)).2.1

/-- C2 witness: a concrete two-run execution with created_count 0 on the second
run and skipped_count equal to the first run's created + skipped counts. -/
theorem second_run_idempotent_witness :
    (execute_run [sampleEvent] [cryptoInvestor]
        (execute_run [sampleEvent] [cryptoInvestor] [] "LIQ-1" okProvider "RUN-1"
          (fun _ => "PID-1") "now1").table
        "LIQ-1" okProvider "RUN-2" (fun _ => "PID-2") "now2").run.created_count = 0
  ∧ (execute_run [sampleEvent] [cryptoInvestor]
        (execute_run [sampleEvent] [cryptoInvestor] [] "LIQ-1" okProvider "RUN-1"
          (fun _ => "PID-1") "now1").table
        "LIQ-1" okProvider "RUN-2" (fun _ => "PID-2") "now2").run.skipped_count
      = (execute_run [sampleEvent] [cryptoInvestor] [] "LIQ-1" okProvider "RUN-1"
          (fun _ => "PID-1") "now1").run.created_count
      + (execute_run [sampleEvent] [cryptoInvestor] [] "LIQ-1" okProvider "RUN-1"
          (fun _ => "PID-1") "now1").run.skipped_count := by
  have h := second_run_idempotent [sampleEvent] [cryptoInvestor] [] "LIQ-1"
    okProvider okProvider "RUN-1" "RUN-2" (fun _ => "PID-1") (fun _ => "PID-2")
    "now1" "now2" sampleEvent (by decide) (by simp) (by decide)
    (fun n req => ⟨_, rfl, by decide⟩) (fun n req => ⟨_, rfl, by decide⟩)
  exact ⟨h.1, h.2.1⟩

/-- C2 counterexample: with one recipient whose method is invalid, the first run
has 0 eligible (created) payouts, yet the second run's skipped_count is 1, not
0, refuting the claim as stated. -/
theorem second_run_idempotent_counterexample :
    (execute_run [sampleEvent] [cryptoInvestor] [] "LIQ-1" okProvider "RUN-1"
        (fun _ => "PID-1") "now1").run.created_count = 0
  ∧ (execute_run [sampleEvent] [cryptoInvestor] [] "LIQ-1" okProvider "RUN-1"
        (fun _ => "PID-1") "now1").run.skipped_count = 1
  ∧ (execute_run [sampleEvent] [cryptoInvestor]
        (execute_run [sampleEvent] [cryptoInvestor] [] "LIQ-1" okProvider "RUN-1"
          (fun _ => "PID-1") "now1").table
        "LIQ-1" okProvider "RUN-2" (fun _ => "PID-2") "now2").run.skipped_count = 1 := by
  refine ⟨?_, ?_, ?_⟩ <;> decide

end PayoutEngine
